import Mathlib

/-!
Verification development for the football-stats-app repository.

The definitions below are a shallow embedding of the repository's
ingestion pipeline (src/import_players.py) and read API
(src/app/models/player.py, src/app/routes/players.py, src/app.py).
Machine integers are modelled as Int/Nat (Python integers are unbounded,
so no wrap-around modelling is needed); fallible operations return
Option/Except; the database transaction is modelled as explicit state
passing with an all-or-nothing wrapper.
-/

set_option autoImplicit false

namespace FootballStats

/-! ## Python primitives

Models of the Python builtins the scripts rely on: int(str) and the
truthiness tests used by the import script. -/

/-- Whitespace recognised when Python's int() strips a string argument. -/
def isPySpace (c : Char) : Bool :=
  c = ' ' ∨ c = '\t' ∨ c = '\n' ∨ c = '\r'

/-- Interprets a list of characters as a non-empty run of decimal digits. -/
def digitsToNat : List Char → Option Nat
  | [] => none
  | cs =>
    if cs.all Char.isDigit then
      some (cs.foldl (fun acc c => acc * 10 + (c.toNat - 48)) 0)
    else
      none

/-- Model of Python's int(s) on a string: strip surrounding whitespace, accept
an optional sign followed by at least one decimal digit, otherwise raise
(here: return none).  Underscore digit separators, which Python also accepts,
are not modelled; no input in this development uses them. -/
def pyIntOfString (s : String) : Option Int :=
  let cs := (s.data.dropWhile isPySpace).reverse.dropWhile isPySpace |>.reverse
  match cs with
  | '-' :: rest => (digitsToNat rest).map (fun n => -(n : Int))
  | '+' :: rest => (digitsToNat rest).map (fun n => (n : Int))
  | rest => (digitsToNat rest).map (fun n => (n : Int))

/-- Model of to_int from src/import_players.py lines 63-68: int(val),
defaulting to 0 when val is None (TypeError) or fails to parse (ValueError). -/
def to_int : Option String → Int
  | none => 0
  | some s => (pyIntOfString s).getD 0

/-! ## Record Normalizer (src/import_players.py lines 86-102)

A raw Understat record is a dictionary of optional string fields; p.get(k)
returns None when the key is absent. -/

/-- Raw upstream record as consumed by fetch_and_store: each field is the
result of p.get(key), absent keys giving none. -/
structure RawRecord where
  player_name : Option String
  team_title : Option String
  age : Option String
  position : Option String
  goals : Option String
  assists : Option String
  nationality : Option String
  deriving DecidableEq, Repr

/-- A normalized row as appended to rows in fetch_and_store lines 94-102. -/
structure NormRow where
  name : String
  age : Int
  position : Option String
  team : String
  goals : Int
  assists : Int
  nationality : Option String
  deriving DecidableEq, Repr

/-- Model of the row-preparation loop of fetch_and_store (lines 86-102):
a record whose player_name or team_title is missing or empty (Python
falsy) is skipped; otherwise a normalized row is built with to_int
coercion of the numeric fields. -/
def normalize (p : RawRecord) : Option NormRow :=
  match p.player_name, p.team_title with
  | some name, some team =>
    if name = "" ∨ team = "" then
      none
    else
      some { name := name
           , age := to_int p.age
           , position := p.position
           , team := team
           , goals := to_int p.goals
           , assists := to_int p.assists
           , nationality := p.nationality }
  | _, _ => none

/-- The list of rows handed to the upsert step: exactly the successfully
normalized records, in input order. -/
def prepareRows (data : List RawRecord) : List NormRow :=
  data.filterMap normalize

/-! ## Upsert Engine (src/import_players.py lines 108-120)

The store is the players table of import_players.py: id (surrogate key),
name (unique), age, position, team, goals, assists, nationality,
last_updated.  Timestamps are abstract Nat instants supplied by the
caller (func.now()). -/

/-- One row of the players table (import_players.py lines 44-56). -/
structure StoredPlayer where
  id : Nat
  name : String
  age : Int
  position : Option String
  team : String
  goals : Int
  assists : Int
  nationality : Option String
  last_updated : Nat
  deriving DecidableEq, Repr

/-- The players table plus the id sequence backing the surrogate key. -/
structure Store where
  rows : List StoredPlayer
  nextId : Nat
  deriving DecidableEq, Repr

def emptyStore : Store := { rows := [], nextId := 0 }

/-- Effect of one row of the ON CONFLICT upsert at commit time t: if a row
with the same name exists it is updated in place — every column except id
and last_updated takes the excluded (incoming) value and last_updated is
set to now() (lines 111-119); otherwise the row is inserted with a fresh
id. -/
def upsertRow (t : Nat) (r : NormRow) (s : Store) : Store :=
  if s.rows.any (fun q => q.name = r.name) then
    { s with
      rows := s.rows.map (fun q =>
        if q.name = r.name then
          { q with
            age := r.age
            position := r.position
            team := r.team
            goals := r.goals
            assists := r.assists
            nationality := r.nationality
            last_updated := t }
        else q) }
  else
    { rows := s.rows ++
        [{ id := s.nextId
         , name := r.name
         , age := r.age
         , position := r.position
         , team := r.team
         , goals := r.goals
         , assists := r.assists
         , nationality := r.nationality
         , last_updated := t }]
    , nextId := s.nextId + 1 }

/-- Sequential application of a batch with no failure: the reference
semantics of a fully successful multi-row upsert. -/
def applyAll (t : Nat) (rows : List NormRow) (s : Store) : Store :=
  rows.foldl (fun st r => upsertRow t r st) s

/-- Database-level errors that abort the single INSERT ... ON CONFLICT DO
UPDATE statement. -/
inductive DBError where
  /-- PostgreSQL error 21000: the multi-row ON CONFLICT DO UPDATE command
  proposed two rows with the same constrained value (name), so the same
  table row would be affected twice within one command.  PostgreSQL
  documents this as an error; the statement fails as a whole. -/
  | duplicateAffect
  /-- The store became unreachable mid-statement (simulated fault). -/
  | connectionLost
  deriving DecidableEq, Repr

/-- Row-at-a-time execution of the multi-row upsert statement, following
PostgreSQL's documented ON CONFLICT DO UPDATE semantics: rows are
processed in order, a row whose name was already affected by this same
command raises error 21000, and a fault injection point (fault = some k:
the connection drops before row k is processed) models the store becoming
unreachable mid-batch.  aff accumulates the names affected so far. -/
def execBatch (t : Nat) : Option Nat → List NormRow → Store → List String →
    Except DBError Store
  | _, [], s, _ => .ok s
  | fault, r :: rest, s, aff =>
    if fault = some 0 then
      .error .connectionLost
    else if r.name ∈ aff then
      .error .duplicateAffect
    else
      execBatch t (fault.map (· - 1)) rest (upsertRow t r s) (r.name :: aff)

/-- Outcome of the upsert step as observed by fetch_and_store: success
reports the count of rows applied (line 122); any SQLAlchemyError is the
StorageFailure outcome (lines 126-127). -/
inductive UpsertOutcome where
  | success (applied : Nat)
  | storageFailure
  deriving DecidableEq, Repr

/-- Model of the transaction block of fetch_and_store lines 108-122:
engine.begin() commits the statement on success and rolls the transaction
back on any exception, so on failure the store is exactly as before the
batch began and the caller observes StorageFailure. -/
def runUpsert (t : Nat) (fault : Option Nat) (rows : List NormRow) (s : Store) :
    UpsertOutcome × Store :=
  match execBatch t fault rows s [] with
  | .ok s2 => (.success rows.length, s2)
  | .error _ => (.storageFailure, s)

/-! ## Fetch Orchestrator (src/import_players.py, module level + fetch_and_store)

The season value is validated at module import time (lines 32-37):
int(SEASON) failing aborts the run with sys.exit(1) before any network
activity.  fetch_and_store then performs one upstream fetch, normalizes,
and upserts.  The upstream interaction is a parameter: none models a
network-layer failure (aiohttp.ClientError), some data a successful
response. -/

/-- Terminal outcome of one run of the import job, in the spec taxonomy:
configurationError is the sys.exit(1) on a bad SEASON, noData the empty
upstream response (line 81), noValidData the all-rejected case (line
104), fetchFailure the aiohttp.ClientError handler (lines 124-125),
storageFailure the SQLAlchemyError handler (lines 126-127). -/
inductive RunOutcome where
  | configurationError
  | noData
  | noValidData
  | fetchFailure
  | storageFailure
  | success (applied : Nat)
  deriving DecidableEq, Repr

/-- Observable result of one run: the outcome, how many times the
upstream fetch was invoked, and the final state of the store. -/
structure RunResult where
  outcome : RunOutcome
  fetchCalls : Nat
  store : Store
  deriving DecidableEq, Repr

/-- Model of one whole invocation of import_players.py: SEASON validation
(lines 32-37), then fetch_and_store (lines 72-129).  fetchResult stands
for the upstream call; fault injects a storage failure during the upsert
statement. -/
def runImport (season : String) (fetchResult : Option (List RawRecord))
    (t : Nat) (fault : Option Nat) (s : Store) : RunResult :=
  match pyIntOfString season with
  | none => { outcome := .configurationError, fetchCalls := 0, store := s }
  | some _ =>
    match fetchResult with
    | none => { outcome := .fetchFailure, fetchCalls := 1, store := s }
    | some data =>
      if data = [] then
        { outcome := .noData, fetchCalls := 1, store := s }
      else
        let rows := prepareRows data
        if rows = [] then
          { outcome := .noValidData, fetchCalls := 1, store := s }
        else
          match runUpsert t fault rows s with
          | (.success n, s2) =>
            { outcome := .success n, fetchCalls := 1, store := s2 }
          | (.storageFailure, s2) =>
            { outcome := .storageFailure, fetchCalls := 1, store := s2 }

/-! ## Read model (src/app/models/player.py)

The Flask read API's Player row and its JSON serialization.  The xg/xa
columns are String columns; to_dict converts them with Python's float(),
which parses the decimal text into an IEEE-754 binary64 value.  Binary
floats are modelled exactly as dyadic rationals: a finite double is
sign, mantissa, exponent with value (-1)^sign * mantissa * 2^exp and
mantissa either 0 or in [2^52, 2^53). -/

/-- Bit length of a natural number, by structural recursion on fuel. -/
def natBitsAux : Nat → Nat → Nat
  | 0, _ => 0
  | fuel + 1, n => if n = 0 then 0 else natBitsAux fuel (n / 2) + 1

/-- Number of binary digits of n (0 for 0). -/
def natBits (n : Nat) : Nat := natBitsAux n n

/-- Round p / q to the nearest integer, ties to even (IEEE round-half-even). -/
def rdiv (p q : Nat) : Nat :=
  let quo := p / q
  let rem := p % q
  if q < 2 * rem then quo + 1
  else if 2 * rem < q then quo
  else if quo % 2 = 0 then quo else quo + 1

/-- Rounds n / d to the nearest multiple of 2 ^ e, returning the multiplier. -/
def scaleDiv (n d : Nat) (e : Int) : Nat :=
  if e ≤ 0 then rdiv (n * 2 ^ e.natAbs) d else rdiv n (d * 2 ^ e.natAbs)

/-- A finite IEEE-754 binary64 value as produced by Python's float():
value = (if neg then -1 else 1) * mantissa * 2 ^ exp, with mantissa = 0
(zero) or 2^52 ≤ mantissa < 2^53 (normal; subnormal/overflow ranges do
not arise for the inputs in this development). -/
structure PyFloat where
  neg : Bool
  mantissa : Nat
  exp : Int
  deriving DecidableEq, Repr

/-- The exact rational value denoted by a PyFloat. -/
def PyFloat.toRat (f : PyFloat) : ℚ :=
  (if f.neg then -1 else 1) * (f.mantissa : ℚ) * (2 : ℚ) ^ f.exp

/-- Rounds the positive rational n / d to the nearest 53-bit dyadic
(round-to-nearest, ties-to-even), the conversion IEEE-754 prescribes and
CPython's float() performs.  The initial exponent estimate from bit
lengths is off by at most one, so a single fix-up step suffices, plus a
renormalization when rounding carries into 2^53. -/
def dyadic53 (n d : Nat) : Nat × Int :=
  let e0 : Int := (natBits n : Int) - (natBits d : Int) - 53
  let m0 := scaleDiv n d e0
  if m0 < 2 ^ 52 then
    let m1 := scaleDiv n d (e0 - 1)
    if m1 = 2 ^ 53 then (2 ^ 52, e0) else (m1, e0 - 1)
  else if 2 ^ 53 ≤ m0 then
    let m1 := scaleDiv n d (e0 + 1)
    if m1 = 2 ^ 53 then (2 ^ 52, e0 + 2) else (m1, e0 + 1)
  else
    (m0, e0)

/-- Splits a list of characters at the first decimal point. -/
def splitAtDot (cs : List Char) : List Char × List Char :=
  match cs.span (fun c => c ≠ '.') with
  | (intPart, []) => (intPart, [])
  | (intPart, _ :: fracPart) => (intPart, fracPart)

/-- Digits of the integer and fractional part as a scaled integer:
returns (n, k) with the denoted value n / 10 ^ k.  At least one digit
must be present overall (Python float() accepts ".5" and "5."). -/
def parseFixedPoint (cs : List Char) : Option (Nat × Nat) :=
  let (ip, fp) := splitAtDot cs
  if (ip ++ fp).all Char.isDigit ∧ ip ++ fp ≠ [] ∧ fp.all Char.isDigit then
    some ((ip ++ fp).foldl (fun acc c => acc * 10 + (c.toNat - 48)) 0, fp.length)
  else
    none

/-- Model of Python's float(s) on a plain fixed-point decimal string:
strip whitespace, optional sign, digits with an optional decimal point,
then correctly-rounded conversion to binary64.  Exponent notation and
the inf/nan spellings, which no value in this development uses, are not
modelled (such strings map to none, i.e. ValueError). -/
def pyFloatOfString (s : String) : Option PyFloat :=
  let cs := (s.data.dropWhile isPySpace).reverse.dropWhile isPySpace |>.reverse
  let signed : Bool × List Char :=
    match cs with
    | '-' :: rest => (true, rest)
    | '+' :: rest => (false, rest)
    | rest => (false, rest)
  (parseFixedPoint signed.2).map (fun nk =>
    if nk.1 = 0 then
      { neg := signed.1, mantissa := 0, exp := 0 }
    else
      let me := dyadic53 nk.1 (10 ^ nk.2)
      { neg := signed.1, mantissa := me.1, exp := me.2 })

/-- A JSON value as produced by jsonify of a to_dict result. -/
inductive JsonValue where
  | jnull
  | jstr (s : String)
  | jint (n : Int)
  | jfloat (f : PyFloat)
  deriving DecidableEq, Repr

/-- Serialization of a nullable integer column. -/
def optInt : Option Int → JsonValue
  | none => .jnull
  | some n => .jint n

/-- One row of the read model's players table
(src/app/models/player.py lines 11-25). -/
structure ReadPlayer where
  id : Nat
  name : String
  position : Option String
  team : Option String
  goals : Option Int
  assists : Option Int
  games : Option Int
  minutes : Option Int
  xg : Option String
  xa : Option String
  shots : Option Int
  key_passes : Option Int
  yellow_cards : Option Int
  red_cards : Option Int
  last_updated : Option Nat
  deriving DecidableEq, Repr

/-- Python's str.split() with no separator: split on runs of whitespace,
discarding empty pieces. -/
def pySplitWs (s : String) : List String :=
  (s.data.splitOnP isPySpace).filterMap (fun piece =>
    if piece = [] then none else some (String.mk piece))

/-- The position_map of _expand_position (player.py lines 32-38). -/
def positionMap (code : String) : Option String :=
  if code = "GK" then some "Goalkeeper"
  else if code = "D" then some "Defender"
  else if code = "M" then some "Midfielder"
  else if code = "F" then some "Forward"
  else if code = "S" then some "Substitute"
  else none

/-- Expands the mapped full names of a token list, raising (error) on the
first token absent from position_map (player.py lines 43-47). -/
def expandTokens : List String → Except String (List String)
  | [] => .ok []
  | tok :: rest =>
    match positionMap tok with
    | none => .error ("Unknown position code: " ++ tok)
    | some full =>
      match expandTokens rest with
      | .ok fulls => .ok (full :: fulls)
      | .error e => .error e

/-- Model of Player._expand_position (player.py lines 27-49): a falsy
position (None or empty string) gives "Unknown"; otherwise the
whitespace-separated tokens are each mapped through position_map, an
unknown token raising ValueError, and the results joined with " / ". -/
def expandPosition (position : Option String) : Except String String :=
  match position with
  | none => .ok "Unknown"
  | some s =>
    if s = "" then .ok "Unknown"
    else
      match expandTokens (pySplitWs s) with
      | .ok fulls => .ok (String.intercalate " / " fulls)
      | .error e => .error e

/-- Serialization of the xg/xa columns (player.py lines 61-62):
float(self.xg) if self.xg else 0.0 — a falsy column (NULL or empty
string) gives the float 0.0, otherwise the text is parsed into a binary
float; unparseable text raises ValueError. -/
def floatField (x : Option String) : Except String JsonValue :=
  match x with
  | none => .ok (.jfloat { neg := false, mantissa := 0, exp := 0 })
  | some s =>
    if s = "" then .ok (.jfloat { neg := false, mantissa := 0, exp := 0 })
    else
      match pyFloatOfString s with
      | some f => .ok (.jfloat f)
      | none => .error ("could not convert string to float: " ++ s)

/-- Model of Player.to_dict (player.py lines 51-70).  Error propagation
models the ValueError that _expand_position or float() can raise while
the dict literal is evaluated.  isoformat of the abstract timestamp is
modelled as its decimal rendering. -/
def toDict (p : ReadPlayer) : Except String (List (String × JsonValue)) :=
  match expandPosition p.position with
  | .error e => .error e
  | .ok pos =>
    match floatField p.xg with
    | .error e => .error e
    | .ok xgv =>
      match floatField p.xa with
      | .error e => .error e
      | .ok xav =>
        .ok [ ("ID", .jint p.id)
            , ("Name", .jstr p.name)
            , ("Position", .jstr pos)
            , ("Club", match p.team with | none => .jnull | some c => .jstr c)
            , ("Goals", optInt p.goals)
            , ("Assists", optInt p.assists)
            , ("Matches", optInt p.games)
            , ("Minutes", optInt p.minutes)
            , ("Expected_Goals", xgv)
            , ("Expected_Assists", xav)
            , ("Shots", optInt p.shots)
            , ("Key_Passes", optInt p.key_passes)
            , ("Yellow_Cards", optInt p.yellow_cards)
            , ("Red_Cards", optInt p.red_cards)
            , ("Last_Updated",
                match p.last_updated with
                | none => .jnull
                | some ts => .jstr (toString ts)) ]

/-- Serializes every player of a result set, propagating the first
ValueError, as the list comprehension in the routes does. -/
def serializeAll : List ReadPlayer → Except String (List (List (String × JsonValue)))
  | [] => .ok []
  | p :: rest =>
    match toDict p with
    | .error e => .error e
    | .ok d =>
      match serializeAll rest with
      | .error e => .error e
      | .ok ds => .ok (d :: ds)

/-- Case-insensitive substring test: the semantics of SQL
ilike with a pattern of the shape percent-query-percent. -/
def ilikeContains (needle hay : String) : Bool :=
  decide (List.IsInfix (needle.data.map Char.toLower) (hay.data.map Char.toLower))

/-- Model of the get_players route of src/app/routes/players.py lines
21-38: optional ilike name filter, optional limit (a falsy limit of 0 is
not applied), serialize all rows; any exception is caught and the route
answers 500.  Returns the HTTP status and the serialized body on
success. -/
def routeGetPlayers (nameQ : Option String) (limitQ : Option Int)
    (table : List ReadPlayer) :
    Nat × Option (List (List (String × JsonValue))) :=
  let filtered :=
    match nameQ with
    | some q => if q = "" then table else table.filter (fun p => ilikeContains q p.name)
    | none => table
  let limited :=
    match limitQ with
    | some l => if l = 0 then filtered else filtered.take l.toNat
    | none => filtered
  match serializeAll limited with
  | .ok body => (200, some body)
  | .error _ => (500, none)

/-! ## Query Service (src/app.py lines 79-112)

The /players route of src/app.py: optional ilike filters, pagination with
clamping, flask-sqlalchemy paginate with error_out=False (an out-of-range
page gives an empty item list, never an HTTP error). -/

/-- Pagination bounds of src/app.py lines 21-23. -/
def DEFAULT_PAGE : Int := 1

def DEFAULT_PER_PAGE : Int := 10

def MAX_PER_PAGE : Int := 100

/-- One row of the players table as src/app.py declares it (lines 42-58). -/
structure AppPlayer where
  id : Nat
  name : String
  team : Option String
  nationality : Option String
  position : Option String
  age : Option Int
  goals : Option Int
  assists : Option Int
  last_updated : Option Nat
  deriving DecidableEq, Repr

/-- Response of the /players route: HTTP status, the page of rows, total
page count, echoed current page, and total item count. -/
structure PageResponse where
  status : Nat
  players : List AppPlayer
  total_pages : Nat
  current_page : Int
  total_items : Nat
  deriving DecidableEq, Repr

/-- Page count as flask-sqlalchemy's Pagination.pages computes it:
ceil(total / per_page), and 0 when there are no items. -/
def paginationPages (total perPage : Nat) : Nat :=
  if total = 0 ∨ perPage = 0 then 0 else (total + perPage - 1) / perPage

/-- Model of the get_players route of src/app.py lines 79-112.  Query
parameters page and per_page default to 1 and 10; page is clamped below
to 1 and per_page into [1, MAX_PER_PAGE] (lines 88-89); the optional
name/team/nationality filters are ilike substring filters; paginate with
error_out=False slices the result set and never raises, so the route
always answers 200. -/
def getPlayersApp (nameQ teamQ natQ : Option String) (pageQ perPageQ : Option Int)
    (table : List AppPlayer) : PageResponse :=
  let page := max (pageQ.getD DEFAULT_PAGE) 1
  let perPage := min (max (perPageQ.getD DEFAULT_PER_PAGE) 1) MAX_PER_PAGE
  let f1 :=
    match nameQ with
    | some q =>
      if q = "" then table
      else table.filter (fun p => ilikeContains q p.name)
    | none => table
  let f2 :=
    match teamQ with
    | some q =>
      if q = "" then f1
      else f1.filter (fun p => ilikeContains q (p.team.getD ""))
    | none => f1
  let f3 :=
    match natQ with
    | some q =>
      if q = "" then f2
      else f2.filter (fun p => ilikeContains q (p.nationality.getD ""))
    | none => f2
  let items := (f3.drop ((page - 1).toNat * perPage.toNat)).take perPage.toNat
  { status := 200
  , players := items
  , total_pages := paginationPages f3.length perPage.toNat
  , current_page := page
  , total_items := f3.length }

/-! ## Spec-side definition for the refinement comparison of claim C5 -/

/-- Modelled from the spec: the strict coercion mode of the Record
Normalizer, which src/import_players.py does not implement (to_int always
defaults to 0).  Following the spec's words, strict mode rejects the
whole record with InvalidFieldValue when a present numeric field
(age, goals, assists) fails integer coercion; the required-field check is
unchanged. -/
def strictNormalize (p : RawRecord) : Option NormRow :=
  match p.player_name, p.team_title with
  | some name, some team =>
    if name = "" ∨ team = "" then
      none
    else if (p.age.isSome ∧ (p.age.bind pyIntOfString).isNone) ∨
        (p.goals.isSome ∧ (p.goals.bind pyIntOfString).isNone) ∨
        (p.assists.isSome ∧ (p.assists.bind pyIntOfString).isNone) then
      none
    else
      some { name := name
           , age := to_int p.age
           , position := p.position
           , team := team
           , goals := to_int p.goals
           , assists := to_int p.assists
           , nationality := p.nationality }
  | _, _ => none

/-! ## Concrete fixtures used by witnesses and counterexamples -/

/-- Builds a raw record with only the fields the import script reads. -/
def mkRec (n tm g : Option String) : RawRecord :=
  { player_name := n, team_title := tm, age := none, position := none
  , goals := g, assists := none, nationality := none }

def rowA1 : NormRow :=
  { name := "A", age := 25, position := some "F", team := "X"
  , goals := 3, assists := 1, nationality := some "England" }

def rowA2 : NormRow :=
  { name := "A", age := 26, position := some "M", team := "Y"
  , goals := 5, assists := 2, nationality := some "England" }

def rowB : NormRow :=
  { name := "B", age := 22, position := some "D", team := "Z"
  , goals := 0, assists := 4, nationality := some "France" }

/-- A batch of 10 raw records, 2 of which are malformed (one with the
name missing, one with an empty team). -/
def batch10 : List RawRecord :=
  [ mkRec (some "A") (some "X") (some "3")
  , mkRec none (some "X") (some "1")
  , mkRec (some "B") (some "X") (some "0")
  , mkRec (some "C") (some "Y") (some "2")
  , mkRec (some "D") (some "Y") (some "bad")
  , mkRec (some "E") (some "Y") none
  , mkRec (some "F") (some "") (some "4")
  , mkRec (some "G") (some "Z") (some "5")
  , mkRec (some "H") (some "Z") (some "6")
  , mkRec (some "I") (some "Z") (some "7") ]

/-- The example record B of the spec's end-to-end scenario: a well-formed
record whose goals field is the unparseable string "bad". -/
def recordB : RawRecord := mkRec (some "B") (some "Y") (some "bad")

/-- The binary64 value CPython's float("0.1") produces:
7205759403792794 * 2 ^ (-56), the nearest double to 1/10. -/
def floatOfTenth : PyFloat :=
  { neg := false, mantissa := 7205759403792794, exp := -56 }

/-- A stored read-model row whose xg column holds the exact decimal text
"0.1" and whose xa column is NULL. -/
def playerTenth : ReadPlayer :=
  { id := 1, name := "A", position := some "F", team := some "X"
  , goals := some 3, assists := some 1, games := some 10, minutes := some 900
  , xg := some "0.1", xa := none, shots := some 20, key_passes := some 5
  , yellow_cards := some 1, red_cards := some 0, last_updated := some 1700000000 }

/-- A stored read-model row whose position column holds a token outside
the position map. -/
def playerBadPosition : ReadPlayer :=
  { id := 2, name := "B", position := some "X", team := some "Y"
  , goals := some 0, assists := some 0, games := some 1, minutes := some 90
  , xg := none, xa := none, shots := some 0, key_passes := some 0
  , yellow_cards := some 0, red_cards := some 0, last_updated := none }

/-- A 25-row players table for the pagination scenario. -/
def table25 : List AppPlayer :=
  (List.range 25).map (fun i =>
    { id := i, name := toString i, team := some "T", nationality := some "N"
    , position := some "F", age := some 20, goals := some 0, assists := some 0
    , last_updated := some 0 })

/-! ## Helper lemmas -/

theorem length_filterMap_add_countP {α β : Type} (f : α → Option β) (l : List α) :
    (l.filterMap f).length + l.countP (fun a => (f a).isNone) = l.length := by
  induction l with
  | nil => simp
  | cons a l ih =>
    cases h : f a <;>
      simp [List.filterMap_cons, h, List.countP_cons] <;> omega

theorem execBatch_ok_eq (t : Nat) :
    ∀ (rows : List NormRow) (fault : Option Nat) (s : Store) (aff : List String)
      (s2 : Store), execBatch t fault rows s aff = .ok s2 → s2 = applyAll t rows s := by
  intro rows
  induction rows with
  | nil =>
    intro fault s aff s2 h
    simp [execBatch] at h
    simp [applyAll, h]
  | cons r rest ih =>
    intro fault s aff s2 h
    by_cases hf : fault = some 0
    · simp [execBatch, hf] at h
    · by_cases ha : r.name ∈ aff
      · simp [execBatch, hf, ha] at h
      · simp only [execBatch, hf, ha, if_false, if_neg] at h
        have := ih (fault.map (· - 1)) (upsertRow t r s) (r.name :: aff) s2 h
        simpa [applyAll] using this

theorem execBatch_nodup_ok (t : Nat) :
    ∀ (rows : List NormRow) (s : Store) (aff : List String),
      (rows.map NormRow.name).Nodup →
      (∀ n ∈ rows.map NormRow.name, n ∉ aff) →
      execBatch t none rows s aff = .ok (applyAll t rows s) := by
  intro rows
  induction rows with
  | nil =>
    intro s aff _ _
    simp [execBatch, applyAll]
  | cons r rest ih =>
    intro s aff hnd haff
    have hhead : r.name ∉ aff := haff r.name (by simp)
    have hnd2 : (rest.map NormRow.name).Nodup := (List.nodup_cons.mp (by simpa using hnd)).2
    have hmem : r.name ∉ rest.map NormRow.name :=
      (List.nodup_cons.mp (by simpa using hnd)).1
    have haff2 : ∀ n ∈ rest.map NormRow.name, n ∉ r.name :: aff := by
      intro n hn
      have h1 : n ∉ aff := haff n (by simp [hn])
      have h2 : n ≠ r.name := fun he => hmem (he ▸ hn)
      simp [h1, h2]
    have := ih (upsertRow t r s) (r.name :: aff) hnd2 haff2
    simp only [execBatch, hhead, if_false, if_neg]
    simpa [applyAll, Option.map] using this

theorem execBatch_dup_error (t : Nat) :
    ∀ (rows : List NormRow) (s : Store) (aff : List String),
      (¬ (rows.map NormRow.name).Nodup ∨ ∃ n ∈ rows.map NormRow.name, n ∈ aff) →
      ∃ e, execBatch t none rows s aff = .error e := by
  intro rows
  induction rows with
  | nil =>
    intro s aff h
    rcases h with h | ⟨n, hn, _⟩
    · simp at h
    · simp at hn
  | cons r rest ih =>
    intro s aff h
    by_cases ha : r.name ∈ aff
    · exact ⟨.duplicateAffect, by simp [execBatch, ha]⟩
    · have step : ¬ (rest.map NormRow.name).Nodup ∨
          ∃ n ∈ rest.map NormRow.name, n ∈ r.name :: aff := by
        rcases h with h | ⟨n, hn, hc⟩
        · rw [List.map_cons, List.nodup_cons] at h
          push_neg at h
          by_cases hmem : r.name ∈ rest.map NormRow.name
          · exact Or.inr ⟨r.name, hmem, by simp⟩
          · exact Or.inl (h hmem)
        · rcases (by simpa using hn : n = r.name ∨ n ∈ rest.map NormRow.name) with he | hm
          · exact absurd (he ▸ hc) ha
          · exact Or.inr ⟨n, hm, by simp [hc]⟩
      obtain ⟨e, he⟩ := ih (upsertRow t r s) (r.name :: aff) step
      refine ⟨e, ?_⟩
      simp [execBatch, ha, Option.map, he]

theorem execBatch_fault_error (t : Nat) :
    ∀ (rows : List NormRow) (k : Nat) (s : Store) (aff : List String),
      k < rows.length → ∃ e, execBatch t (some k) rows s aff = .error e := by
  intro rows
  induction rows with
  | nil =>
    intro k s aff hk
    simp at hk
  | cons r rest ih =>
    intro k s aff hk
    match k with
    | 0 => exact ⟨.connectionLost, by simp [execBatch]⟩
    | k + 1 =>
      by_cases ha : r.name ∈ aff
      · exact ⟨.duplicateAffect, by simp [execBatch, ha]⟩
      · obtain ⟨e, he⟩ := ih k (upsertRow t r s) (r.name :: aff)
          (by simpa using Nat.lt_of_succ_lt_succ hk)
        exact ⟨e, by simp [execBatch, ha, Option.map, he]⟩

theorem serializeAll_error :
    ∀ (table : List ReadPlayer) (p : ReadPlayer), p ∈ table →
      (∃ e, toDict p = .error e) → ∃ e2, serializeAll table = .error e2 := by
  intro table
  induction table with
  | nil =>
    intro p hp
    simp at hp
  | cons q rest ih =>
    intro p hp ⟨e, he⟩
    rcases List.mem_cons.mp hp with rfl | hmem
    · exact ⟨e, by simp [serializeAll, he]⟩
    · cases hq : toDict q with
      | error e2 => exact ⟨e2, by simp [serializeAll, hq]⟩
      | ok d =>
        obtain ⟨e2, he2⟩ := ih p hmem ⟨e, he⟩
        exact ⟨e2, by simp [serializeAll, hq, he2]⟩

/-! ## Claim theorems -/

/-- Claim C1, counterexample.  The claim says a batch in which the same
player name occurs twice is accepted and commits with the last occurrence
winning.  On the code this is false: the single multi-row INSERT ... ON
CONFLICT DO UPDATE statement of fetch_and_store (lines 110-120) proposes
the name "A" twice, PostgreSQL raises error 21000 (an ON CONFLICT DO
UPDATE command cannot affect the same row a second time), the transaction
rolls back, and the store is unchanged. -/
theorem upsert_duplicate_batch_refuted :
    runUpsert 7 none [rowA1, rowA2] emptyStore = (.storageFailure, emptyStore) := by
  decide

/-- Claim C1, amended.  A batch whose name column is not duplicate-free is
rejected as a whole by the upsert statement: the transaction rolls back,
the caller observes the storage-failure outcome, and the store is exactly
as before the batch. -/
theorem upsert_duplicate_batch_rolls_back (t : Nat) (rows : List NormRow) (s : Store)
    (hdup : ¬ (rows.map NormRow.name).Nodup) :
    runUpsert t none rows s = (.storageFailure, s) := by
  obtain ⟨e, he⟩ := execBatch_dup_error t rows s [] (Or.inl hdup)
  simp [runUpsert, he]

/-- Witness for the amended claim C1 at a concrete duplicate batch. -/
theorem upsert_duplicate_batch_rolls_back_witness :
    runUpsert 3 none [rowA2, rowA1]
      { rows := [], nextId := 4 } = (.storageFailure, { rows := [], nextId := 4 }) :=
  upsert_duplicate_batch_rolls_back 3 [rowA2, rowA1] { rows := [], nextId := 4 } (by decide)

/-- Claim C2.  The upsert transaction is all-or-nothing: every run either
commits the full batch (the store is the sequential application of every
row) or changes nothing; whenever the outcome is the storage failure the
store is exactly the pre-batch store; and a simulated connection loss
injected before any row of the batch, in particular partway through a
multi-row batch, yields the storage-failure outcome with the store
unchanged. -/
theorem upsert_batch_atomic (t : Nat) (fault : Option Nat) (rows : List NormRow) (s : Store) :
    (runUpsert t fault rows s = (.success rows.length, applyAll t rows s) ∨
      runUpsert t fault rows s = (.storageFailure, s)) ∧
    ((runUpsert t fault rows s).1 = .storageFailure → (runUpsert t fault rows s).2 = s) ∧
    (∀ k, fault = some k → k < rows.length →
      runUpsert t fault rows s = (.storageFailure, s)) := by
  cases hE : execBatch t fault rows s [] with
  | ok s2 =>
    have heq := execBatch_ok_eq t rows fault s [] s2 hE
    subst heq
    refine ⟨Or.inl (by simp [runUpsert, hE]), by simp [runUpsert, hE], ?_⟩
    intro k hk hlen
    obtain ⟨e, he⟩ := execBatch_fault_error t rows k s [] hlen
    rw [hk] at hE
    rw [he] at hE
    cases hE
  | error e =>
    exact ⟨Or.inr (by simp [runUpsert, hE]), by simp [runUpsert, hE],
      fun k hk hlen => by simp [runUpsert, hE]⟩

/-- Witness for claim C2: a storage failure injected after the first row
of a two-row batch leaves the store untouched and surfaces the
storage-failure outcome. -/
theorem upsert_batch_atomic_witness :
    runUpsert 3 (some 1) [rowA1, rowB] emptyStore = (.storageFailure, emptyStore) :=
  (upsert_batch_atomic 3 (some 1) [rowA1, rowB] emptyStore).2.2 1 rfl (by decide)

/-- Claim C3.  Re-applying a row identical to the stored row(s) of its
name changes only the last-modified timestamp: the commit succeeds and
the resulting table is the old table with exactly the matching rows'
last_updated set to the merge time — ids, every other field, and all
rows with other names are untouched, and the id sequence does not
advance. -/
theorem upsert_identical_row_touches_only_timestamp (t : Nat) (r : NormRow) (s : Store)
    (hex : ∃ q ∈ s.rows, q.name = r.name)
    (hfields : ∀ q ∈ s.rows, q.name = r.name →
      q.age = r.age ∧ q.position = r.position ∧ q.team = r.team ∧
      q.goals = r.goals ∧ q.assists = r.assists ∧ q.nationality = r.nationality) :
    runUpsert t none [r] s =
      (.success 1,
        { rows := s.rows.map (fun q =>
            if q.name = r.name then { q with last_updated := t } else q)
        , nextId := s.nextId }) := by
  have hany : s.rows.any (fun q => q.name = r.name) = true := by
    obtain ⟨q, hq, hn⟩ := hex
    exact List.any_eq_true.mpr ⟨q, hq, by simp [hn]⟩
  have hstep : execBatch t none [r] s [] = .ok (upsertRow t r s) := by
    simp [execBatch]
  have hrow : upsertRow t r s =
      { rows := s.rows.map (fun q =>
          if q.name = r.name then { q with last_updated := t } else q)
      , nextId := s.nextId } := by
    simp only [upsertRow, hany, if_true]
    congr 1
    apply List.map_congr_left
    intro q hq
    by_cases hn : q.name = r.name
    · obtain ⟨h1, h2, h3, h4, h5, h6⟩ := hfields q hq hn
      cases q
      simp_all
    · simp [hn]
  simp [runUpsert, hstep, hrow]

/-- Witness for claim C3 at a one-row store and an identical incoming row. -/
theorem upsert_identical_row_touches_only_timestamp_witness :
    runUpsert 200 none [rowA1]
        { rows := [{ id := 5, name := "A", age := 25, position := some "F", team := "X"
                   , goals := 3, assists := 1, nationality := some "England"
                   , last_updated := 100 }], nextId := 6 } =
      (.success 1,
        { rows := List.map (fun q =>
            if q.name = rowA1.name then { q with last_updated := 200 } else q)
            [{ id := 5, name := "A", age := 25, position := some "F", team := "X"
             , goals := 3, assists := 1, nationality := some "England"
             , last_updated := 100 }]
        , nextId := 6 }) :=
  upsert_identical_row_touches_only_timestamp 200 rowA1
    { rows := [{ id := 5, name := "A", age := 25, position := some "F", team := "X"
               , goals := 3, assists := 1, nationality := some "England"
               , last_updated := 100 }], nextId := 6 }
    (by decide) (by decide)

/-- Claim C4.  A raw record whose name or team field is missing or empty
is rejected by the normalization loop and never reaches the upsert step;
for any batch of 10 raw records of which exactly 2 fail normalization,
the prepared batch has exactly 8 rows, the rejection count is 2, and
(when the 8 surviving names are distinct, as for real roster data) the
upsert commits reporting 8 applied rows. -/
theorem normalizer_rejects_missing_fields :
    (∀ p : RawRecord,
      p.player_name = none ∨ p.player_name = some "" ∨
        p.team_title = none ∨ p.team_title = some "" →
      normalize p = none) ∧
    (∀ (data : List RawRecord) (t : Nat) (s : Store),
      data.length = 10 →
      data.countP (fun p => (normalize p).isNone) = 2 →
      ((prepareRows data).map NormRow.name).Nodup →
      (prepareRows data).length = 8 ∧
      data.length - (prepareRows data).length = 2 ∧
      (runUpsert t none (prepareRows data) s).1 = .success 8) := by
  constructor
  · intro p hp
    rcases hp with h | h | h | h
    · cases ht : p.team_title <;> simp [normalize, h, ht]
    · cases ht : p.team_title <;> simp [normalize, h, ht]
    · cases hn : p.player_name <;> simp [normalize, h, hn]
    · cases hn : p.player_name <;> simp [normalize, h, hn]
  · intro data t s hlen hcount hnd
    have hfm := length_filterMap_add_countP normalize data
    have h8 : (prepareRows data).length = 8 := by
      unfold prepareRows
      omega
    refine ⟨h8, by omega, ?_⟩
    have hok := execBatch_nodup_ok t (prepareRows data) s [] hnd (by simp)
    simp [runUpsert, hok, h8]

/-- Witness for claim C4 at a concrete batch of 10 with 2 malformed
records. -/
theorem normalizer_rejects_missing_fields_witness :
    normalize (mkRec none (some "X") (some "1")) = none ∧
    (prepareRows batch10).length = 8 ∧
    batch10.length - (prepareRows batch10).length = 2 ∧
    (runUpsert 1 none (prepareRows batch10) emptyStore).1 = .success 8 := by
  have h := normalizer_rejects_missing_fields
  have h2 := h.2 batch10 1 emptyStore (by decide) (by decide) (by decide)
  exact ⟨h.1 (mkRec none (some "X") (some "1")) (Or.inl rfl), h2.1, h2.2.1, h2.2.2⟩

/-- Inversion of a successful normalization: the produced row's numeric
fields are the to_int coercions of the raw fields and the descriptive
fields are passed through. -/
theorem normalize_some_inv (p : RawRecord) (row : NormRow) (h : normalize p = some row) :
    row.age = to_int p.age ∧ row.goals = to_int p.goals ∧
    row.assists = to_int p.assists ∧ row.position = p.position ∧
    row.nationality = p.nationality := by
  unfold normalize at h
  cases hn : p.player_name <;> rw [hn] at h
  · simp at h
  · cases ht : p.team_title <;> rw [ht] at h
    · simp at h
    · simp only [] at h
      split at h
      · cases h
      · cases h
        simp

/-- Claim C5, counterexample.  The claim says malformed-numeric handling
is a caller-configurable choice between lenient (default to 0) and strict
(reject with InvalidFieldValue).  The code exposes no such choice: to_int
(import_players.py lines 63-68) unconditionally defaults to 0, so the
spec's example record B with goals = "bad" is accepted with goals 0,
whereas the spec's strict mode would reject it — the two behaviors
disagree and only the lenient one exists in the code. -/
theorem strict_mode_refuted :
    normalize recordB =
      some { name := "B", age := 0, position := none, team := "Y"
           , goals := 0, assists := 0, nationality := none } ∧
    strictNormalize recordB = none ∧
    normalize recordB ≠ strictNormalize recordB := by
  decide

/-- Claim C5, amended.  The Normalizer has exactly one, hard-wired
behavior, the lenient one: every record with a non-empty name and team is
accepted, and each missing or malformed numeric field is coerced to 0;
no strict mode or InvalidFieldValue rejection exists in the code. -/
theorem normalizer_lenient_only (p : RawRecord) (name team bad : String)
    (hn : p.player_name = some name) (ht : p.team_title = some team)
    (hne : name ≠ "") (hte : team ≠ "") (hbad : pyIntOfString bad = none) :
    normalize p =
      some { name := name, age := to_int p.age, position := p.position
           , team := team, goals := to_int p.goals
           , assists := to_int p.assists, nationality := p.nationality } ∧
    to_int (some bad) = 0 ∧ to_int none = 0 := by
  refine ⟨?_, by simp [to_int, hbad], rfl⟩
  unfold normalize
  rw [hn, ht]
  simp [hne, hte]

/-- Witness for the amended claim C5 at the spec's example record B. -/
theorem normalizer_lenient_only_witness :
    normalize recordB =
      some { name := "B", age := to_int recordB.age, position := recordB.position
           , team := "Y", goals := to_int recordB.goals
           , assists := to_int recordB.assists
           , nationality := recordB.nationality } ∧
    to_int (some "bad") = 0 ∧ to_int none = 0 :=
  normalizer_lenient_only recordB "B" "Y" "bad" rfl rfl (by decide) (by decide) (by decide)

/-- Claim C6, counterexample.  The claim says expected-goals values are
never parsed into binary floating point on the JSON response path.  On
the code this is false: Player.to_dict (player.py line 61) computes
float(self.xg), so the stored exact text "0.1" is serialized as the
binary64 value 7205759403792794 * 2^(-56), which is not equal to 1/10 and
is not the decimal text "0.1". -/
theorem xg_exact_text_refuted :
    (toDict playerTenth).toOption.bind (fun l => l.lookup "Expected_Goals") =
      some (.jfloat floatOfTenth) ∧
    floatOfTenth.toRat ≠ 1 / 10 ∧
    JsonValue.jfloat floatOfTenth ≠ .jstr "0.1" := by
  refine ⟨by decide, ?_, by decide⟩
  simp [PyFloat.toRat, floatOfTenth]
  norm_num

/-- Claim C6, amended.  The xg/xa columns are stored as decimal text
(String columns), but the read API's serialization does parse them into
binary floating point: for every stored player whose xg text parses,
to_dict emits the binary64 value float(xg) for Expected_Goals. -/
theorem xg_serialized_as_binary_float (p : ReadPlayer) (s : String) (f : PyFloat)
    (pos : String) (xav : JsonValue)
    (hxg : p.xg = some s) (hs : s ≠ "") (hf : pyFloatOfString s = some f)
    (hpos : expandPosition p.position = .ok pos)
    (hxa : floatField p.xa = .ok xav) :
    ∃ l, toDict p = .ok l ∧ l.lookup "Expected_Goals" = some (.jfloat f) := by
  have hfield : floatField p.xg = .ok (.jfloat f) := by
    rw [hxg]
    simp [floatField, hs, hf]
  cases hd : toDict p with
  | error e =>
    exfalso
    simp only [toDict, hpos, hfield, hxa] at hd
    exact Except.noConfusion hd
  | ok l =>
    refine ⟨l, rfl, ?_⟩
    simp only [toDict, hpos, hfield, hxa] at hd
    injection hd with h
    subst h
    simp [List.lookup]

/-- Witness for the amended claim C6 at the stored text "0.1". -/
theorem xg_serialized_as_binary_float_witness :
    ∃ l, toDict playerTenth = .ok l ∧
      l.lookup "Expected_Goals" = some (.jfloat floatOfTenth) :=
  xg_serialized_as_binary_float playerTenth "0.1" floatOfTenth "Forward"
    (.jfloat { neg := false, mantissa := 0, exp := 0 })
    rfl (by decide) (by decide) rfl rfl

/-- Claim C7.  A season value that does not parse as an integer ends the
run with the configuration-error outcome before any network activity: the
upstream fetch is invoked zero times and the store is untouched, whatever
the upstream would have answered. -/
theorem bad_season_aborts_before_fetch (season : String)
    (fetchResult : Option (List RawRecord)) (t : Nat) (fault : Option Nat) (s : Store)
    (h : pyIntOfString season = none) :
    runImport season fetchResult t fault s =
      { outcome := .configurationError, fetchCalls := 0, store := s } := by
  simp [runImport, h]

/-- Witness for claim C7 at the season value "abc". -/
theorem bad_season_aborts_before_fetch_witness :
    runImport "abc" (some [mkRec (some "A") (some "X") (some "3")]) 5 none emptyStore =
      { outcome := .configurationError, fetchCalls := 0, store := emptyStore } :=
  bad_season_aborts_before_fetch "abc" (some [mkRec (some "A") (some "X") (some "3")])
    5 none emptyStore (by decide)

/-- Claim C8, counterexample.  The claim says per_page = 0 or per_page
above the maximum of 100 yields HTTP 400.  On the code this is false:
src/app.py lines 88-89 clamp per_page into [1, 100] and the route
answers 200 — the response for per_page = 0 is byte-identical to the one
for per_page = 1, and for per_page = 1000 to the one for per_page =
100. -/
theorem pagination_400_refuted :
    (getPlayersApp none none none (some 1) (some 0) table25).status = 200 ∧
    (getPlayersApp none none none (some 1) (some 1000) table25).status = 200 ∧
    getPlayersApp none none none (some 1) (some 0) table25 =
      getPlayersApp none none none (some 1) (some 1) table25 ∧
    getPlayersApp none none none (some 1) (some 1000) table25 =
      getPlayersApp none none none (some 1) (some 100) table25 := by
  refine ⟨rfl, rfl, ?_, ?_⟩ <;> decide

/-- Claim C8, amended.  Out-of-bounds per_page values are clamped, not
rejected: the route always answers 200, a per_page of 0 behaves as 1 and
a per_page of 1000 behaves as the maximum 100; the total_pages part of
the claim holds — a 25-row table with page = 1 and per_page = 10 reports
total_pages = 3. -/
theorem pagination_clamps_per_page (nameQ teamQ natQ : Option String)
    (pageQ perPageQ : Option Int) (table t25 : List AppPlayer)
    (h25 : t25.length = 25) :
    (getPlayersApp nameQ teamQ natQ pageQ perPageQ table).status = 200 ∧
    getPlayersApp nameQ teamQ natQ pageQ (some 0) table =
      getPlayersApp nameQ teamQ natQ pageQ (some 1) table ∧
    getPlayersApp nameQ teamQ natQ pageQ (some 1000) table =
      getPlayersApp nameQ teamQ natQ pageQ (some 100) table ∧
    (getPlayersApp none none none (some 1) (some 10) t25).total_pages = 3 := by
  refine ⟨rfl,
    by norm_num [getPlayersApp, MAX_PER_PAGE, DEFAULT_PAGE, DEFAULT_PER_PAGE],
    by norm_num [getPlayersApp, MAX_PER_PAGE, DEFAULT_PAGE, DEFAULT_PER_PAGE], ?_⟩
  simp only [getPlayersApp, paginationPages, MAX_PER_PAGE, DEFAULT_PAGE,
    DEFAULT_PER_PAGE, h25]
  decide

/-- Witness for the amended claim C8 at a concrete 25-row table. -/
theorem pagination_clamps_per_page_witness :
    (getPlayersApp none none none (some 2) (some 7) table25).status = 200 ∧
    getPlayersApp none none none (some 2) (some 0) table25 =
      getPlayersApp none none none (some 2) (some 1) table25 ∧
    getPlayersApp none none none (some 2) (some 1000) table25 =
      getPlayersApp none none none (some 2) (some 100) table25 ∧
    (getPlayersApp none none none (some 1) (some 10) table25).total_pages = 3 :=
  pagination_clamps_per_page none none none (some 2) (some 7) table25 table25 (by decide)

/-- Claim C9, counterexample.  The claim says no input can produce a
stored negative counter.  On the code this is false: to_int passes
negative numeric strings through, so a raw record with goals = "-3"
normalizes to goals = -3 and the upsert stores a row with a negative
goals counter. -/
theorem nonnegative_counters_refuted :
    normalize (mkRec (some "A") (some "X") (some "-3")) =
      some { name := "A", age := 0, position := none, team := "X"
           , goals := -3, assists := 0, nationality := none } ∧
    (runUpsert 0 none
        [{ name := "A", age := 0, position := none, team := "X"
         , goals := -3, assists := 0, nationality := none }] emptyStore).2.rows =
      [{ id := 0, name := "A", age := 0, position := none, team := "X"
       , goals := -3, assists := 0, nationality := none, last_updated := 0 }] ∧
    ({ id := 0, name := "A", age := 0, position := none, team := "X"
     , goals := -3, assists := 0, nationality := none
     , last_updated := 0 } : StoredPlayer).goals < 0 := by
  decide

/-- Claim C9, amended.  Every numeric counter of a normalized row is the
to_int coercion of the raw field: 0 when the field is missing or fails to
parse, and otherwise the parsed integer — which the code does not
constrain to be non-negative. -/
theorem counters_default_zero_coercion (p : RawRecord) (row : NormRow) (bad : String)
    (h : normalize p = some row) (hbad : pyIntOfString bad = none) :
    row.goals = to_int p.goals ∧ row.assists = to_int p.assists ∧
    row.age = to_int p.age ∧
    (p.goals = none → row.goals = 0) ∧
    to_int (some bad) = 0 := by
  obtain ⟨ha, hg, hs2, _, _⟩ := normalize_some_inv p row h
  refine ⟨hg, hs2, ha, ?_, by simp [to_int, hbad]⟩
  intro hnone
  rw [hg, hnone]
  rfl

/-- Witness for the amended claim C9 at a record whose goals field is
missing. -/
theorem counters_default_zero_coercion_witness :
    ({ name := "E", age := 0, position := none, team := "Y"
     , goals := 0, assists := 0, nationality := none } : NormRow).goals = 0 ∧
    to_int (some "bad") = 0 := by
  have h := counters_default_zero_coercion (mkRec (some "E") (some "Y") none)
      { name := "E", age := 0, position := none, team := "Y"
      , goals := 0, assists := 0, nationality := none } "bad" (by decide) (by decide)
  exact ⟨h.2.2.2.1 rfl, h.2.2.2.2⟩

/-- All-mapped token lists expand to the mapped full names. -/
theorem expandTokens_ok_of_all :
    ∀ toks : List String, (∀ tok ∈ toks, (positionMap tok).isSome) →
      expandTokens toks = .ok (toks.filterMap positionMap) := by
  intro toks
  induction toks with
  | nil => intro; simp [expandTokens]
  | cons tok rest ih =>
    intro hall
    obtain ⟨full, hfull⟩ := Option.isSome_iff_exists.mp (hall tok (by simp))
    have hrest := ih (fun x hx => hall x (by simp [hx]))
    simp [expandTokens, hfull, hrest, List.filterMap_cons]

/-- A token outside the position map makes the expansion raise. -/
theorem expandTokens_error_of_bad :
    ∀ (toks : List String) (tok : String), tok ∈ toks → positionMap tok = none →
      ∃ e, expandTokens toks = .error e := by
  intro toks
  induction toks with
  | nil =>
    intro tok h
    simp at h
  | cons t2 rest ih =>
    intro tok hmem hnone
    cases hpm : positionMap t2 with
    | none => exact ⟨"Unknown position code: " ++ t2, by simp [expandTokens, hpm]⟩
    | some full =>
      rcases List.mem_cons.mp hmem with rfl | hmem2
      · rw [hpm] at hnone
        cases hnone
      · obtain ⟨e, he⟩ := ih tok hmem2 hnone
        exact ⟨e, by simp [expandTokens, hpm, he]⟩

/-- Claim C10.  Serializing a stored player is a partial function of the
position text: a NULL or empty position expands to "Unknown"; a position
all of whose whitespace-separated tokens are position-map codes expands
to the joined full names; a position containing any other token makes
_expand_position raise, so to_dict raises, and the players listing route
that serializes such a player answers 500. -/
theorem position_expansion_partial :
    expandPosition none = .ok "Unknown" ∧
    expandPosition (some "") = .ok "Unknown" ∧
    (∀ s : String, s ≠ "" → (∀ tok ∈ pySplitWs s, (positionMap tok).isSome) →
      expandPosition (some s) =
        .ok (String.intercalate " / " ((pySplitWs s).filterMap positionMap))) ∧
    (∀ (s tok : String), tok ∈ pySplitWs s → positionMap tok = none →
      ∃ e, expandPosition (some s) = .error e) ∧
    (∀ (s tok : String) (p : ReadPlayer), p.position = some s → tok ∈ pySplitWs s →
      positionMap tok = none → ∃ e, toDict p = .error e) ∧
    (∀ (table : List ReadPlayer) (p : ReadPlayer), p ∈ table →
      (∃ e, toDict p = .error e) →
      (routeGetPlayers none none table).1 = 500) := by
  have hbad : ∀ (s tok : String), tok ∈ pySplitWs s → positionMap tok = none →
      ∃ e, expandPosition (some s) = .error e := by
    intro s tok hmem hnone
    have hs : s ≠ "" := by
      intro he
      rw [he] at hmem
      simp [pySplitWs] at hmem
    obtain ⟨e, he⟩ := expandTokens_error_of_bad (pySplitWs s) tok hmem hnone
    exact ⟨e, by simp [expandPosition, hs, he]⟩
  have htod : ∀ (s tok : String) (p : ReadPlayer), p.position = some s →
      tok ∈ pySplitWs s → positionMap tok = none → ∃ e, toDict p = .error e := by
    intro s tok p hp hmem hnone
    obtain ⟨e, he⟩ := hbad s tok hmem hnone
    rw [← hp] at he
    exact ⟨e, by simp only [toDict, he]⟩
  refine ⟨rfl, rfl, ?_, hbad, htod, ?_⟩
  · intro s hs hall
    have := expandTokens_ok_of_all (pySplitWs s) hall
    simp [expandPosition, hs, this]
  · intro table p hp he
    obtain ⟨e2, he2⟩ := serializeAll_error table p hp he
    simp [routeGetPlayers, he2]

/-- Witness for claim C10: the single-token position "F M" expands to the
joined full names, and a table holding a player with the unknown position
code "X" makes the players route answer 500. -/
theorem position_expansion_partial_witness :
    expandPosition (some "F M") = .ok "Forward / Midfielder" ∧
    (routeGetPlayers none none [playerBadPosition]).1 = 500 := by
  have h := position_expansion_partial
  constructor
  · have h3 := h.2.2.1 "F M" (by decide) (by decide)
    simpa using h3
  · exact h.2.2.2.2.2 [playerBadPosition] playerBadPosition (by simp)
      (h.2.2.2.2.1 "X" "X" playerBadPosition rfl (by decide) (by decide))

end FootballStats
